import Mathlib

/-!
Verification of the card-generation domain model of the anki_generator
repository.  The Lean definitions below are a shallow embedding of the
Python sources:

* `src/legacy/domain/value_objects/word.py`, `example.py`, `audio_path.py`
  (the `src/domain` package imports identically named value objects; only
  the legacy copies are present in the tree),
* `src/domain/value_objects/translation.py`,
* `src/domain/entities/card.py`,
* `src/domain/entities/generation_session.py`,
* `src/domain/services/duplicate_detection_service.py`,
* `src/domain/services/card_quality_service.py`.

Modelling conventions: Python `str` becomes `String` (ASCII semantics for
`lower` / `isalpha` / whitespace), `datetime.utcnow()` becomes an explicit
`now : Nat` argument to every mutator, `uuid.UUID` becomes `Nat`, raising
`ValueError` becomes `Except String` / `Option`, and mutation becomes
functional update.  Python floats are carried as `ℚ`; where a claim turns
on the value of a float computation rather than on control flow, the
binary64 rounding the program performs is modelled explicitly (`fl64`,
round to nearest, ties to even, 53-bit significand) — see claim C5, whose
truth hinges on `0.6 + 0.3 + 0.1` losing one ulp under doubles.
-/

namespace AnkiGen

/-! ## Text utilities shared by the value objects and services -/

/-- Worker for `squashWs`: the flag records whether the previous character
was whitespace (so the current run has already emitted its space). -/
def squashWsAux : Bool → List Char → List Char
  | _, [] => []
  | prevWs, c :: cs =>
    if c.isWhitespace then
      if prevWs then squashWsAux true cs
      else ' ' :: squashWsAux true cs
    else c :: squashWsAux false cs

/-- Collapse every maximal run of whitespace characters to a single space,
the effect of Python `re.sub(r'\s+', ' ', s)`. -/
def squashWs (l : List Char) : List Char := squashWsAux false l

/-- Python `s.strip()`: drop leading and trailing whitespace.  (The
built-in `String.trim` is implemented on byte positions and does not
reduce in the kernel, so the embedding works on character lists.) -/
def pyStrip (s : String) : String :=
  String.mk (((s.toList.dropWhile Char.isWhitespace).reverse.dropWhile
    Char.isWhitespace).reverse)

/-- Python `s.lower()` (ASCII). -/
def pyLower (s : String) : String := String.mk (s.toList.map Char.toLower)

/-- Split a character list at every separator chosen by `p`, keeping empty
pieces (the behaviour of Python `str.split(sep)` for a one-character
separator, before any filtering). -/
def splitPred (p : Char → Bool) : List Char → List (List Char)
  | [] => [[]]
  | c :: cs =>
    if p c then [] :: splitPred p cs
    else
      match splitPred p cs with
      | [] => [[c]]
      | h :: t => (c :: h) :: t

/-- Python `s.split(sep)` for a one-character separator. -/
def pySplitOn (s : String) (sep : Char) : List String :=
  (splitPred (fun c => c = sep) s.toList).map String.mk

/-- Python `s.split()`: split on whitespace runs, dropping empty pieces. -/
def pySplit (s : String) : List String :=
  ((splitPred Char.isWhitespace s.toList).map String.mk).filter (fun p => p ≠ "")

/-- Python `sub in s` (substring containment) on character lists. -/
def containsSub (hay needle : List Char) : Bool :=
  match hay with
  | [] => needle.isEmpty
  | _ :: t => needle.isPrefixOf hay || containsSub t needle

/-- Python `sub in s` on strings. -/
def strContains (hay needle : String) : Bool := containsSub hay.toList needle.toList

/-- Python `s.isalpha()`: non-empty and every character alphabetic. -/
def pyIsAlpha (s : String) : Bool := s ≠ "" && s.toList.all Char.isAlpha

/-- Python `s.replace(old, '')` for a single character `old`. -/
def removeChar (s : String) (c : Char) : String :=
  String.mk (s.toList.filter (fun x => x ≠ c))

/-! ## Value objects -/

/-- Embeds `Word` (value object, `word.py`).  `value` holds the string after the
constructor normalisation (strip + whitespace collapse). -/
structure Word where
  value : String
  deriving DecidableEq, Repr

/-- Characters accepted by the `Word` validation regex `^[a-zA-Z\s\-]+$`. -/
def wordCharOk (c : Char) : Bool := c.isAlpha || c.isWhitespace || c = '-'

/-- Embeds `Word.__post_init__`: reject empty/blank input, reject characters outside
letters/whitespace/hyphen, then collapse whitespace.  Raising `ValueError`
is modelled by `none`. -/
def Word.create (raw : String) : Option Word :=
  if pyStrip raw = "" then none
  else if ((pyStrip raw).toList.all wordCharOk) = false then none
  else some ⟨String.mk (squashWs (pyStrip raw).toList)⟩

/-- Embeds `Word.normalized`: `self.value.lower().strip()`. -/
def Word.normalized (w : Word) : String := pyStrip (pyLower w.value)

/-- Embeds `Translation` (value object, `translation.py`). -/
structure Translation where
  value : String
  deriving DecidableEq, Repr

/-- Embeds `Translation.__post_init__`: reject empty/blank, strip and collapse
whitespace. -/
def Translation.create (raw : String) : Option Translation :=
  if pyStrip raw = "" then none
  else some ⟨String.mk (squashWs (pyStrip raw).toList)⟩

/-- Embeds `Translation.normalized`: `self.value.lower().strip()`. -/
def Translation.normalized (t : Translation) : String := pyStrip (pyLower t.value)

/-- Embeds `Translation.translations_list`: split on commas, strip each piece, drop
empty pieces. -/
def Translation.translationsList (t : Translation) : List String :=
  ((pySplitOn t.value ',').map pyStrip).filter (fun p => p ≠ "")

/-- Embeds `Example` (value object, `example.py`): an original/translated sentence
pair, both stripped and whitespace-collapsed, both at least 10 characters. -/
structure Exmpl where
  original : String
  translated : String
  deriving DecidableEq, Repr

/-- Embeds `Example.__post_init__` (the Lean type is named `Exmpl` because
`example` is a Lean keyword). -/
def Exmpl.create (original translated : String) : Option Exmpl :=
  if pyStrip original = "" then none
  else if pyStrip translated = "" then none
  else
    let o := String.mk (squashWs (pyStrip original).toList)
    let t := String.mk (squashWs (pyStrip translated).toList)
    if o.length < 10 then none
    else if t.length < 10 then none
    else some ⟨o, t⟩

/-- Embeds `Example.original_normalized`. -/
def Exmpl.originalNormalized (e : Exmpl) : String := pyStrip (pyLower e.original)

/-- Embeds `Example.translated_normalized`. -/
def Exmpl.translatedNormalized (e : Exmpl) : String := pyStrip (pyLower e.translated)

/-- Embeds `AudioPath` (value object, `audio_path.py`). -/
structure AudioPath where
  path : String
  deriving DecidableEq, Repr

/-- Final path component, `pathlib.PurePath.name` for forward-slash paths. -/
def pathName (p : String) : String :=
  match (pySplitOn p '/').getLast? with
  | some n => n
  | none => p

/-- Embeds `pathlib.PurePath.suffix`: the extension of the final component, empty
unless the last dot is strictly inside the name. -/
def pathSuffix (p : String) : String :=
  let name := (pathName p).toList
  let i := (List.range name.length).foldl
    (fun acc k => if name.get? k = some '.' then k else acc) 0
  if 0 < i ∧ i < name.length - 1 then String.mk (name.drop i) else ""

/-- Supported audio formats (`AudioPath.SUPPORTED_FORMATS`). -/
def supportedFormats : List String := [".mp3", ".wav", ".ogg", ".m4a"]

/-- Embeds `AudioPath.__post_init__`: non-blank, must carry a supported extension.
`str(Path(p))` is modelled as the stripped path itself (faithful for paths
without redundant separators, the only ones this system produces). -/
def AudioPath.create (raw : String) : Option AudioPath :=
  if pyStrip raw = "" then none
  else
    let p := pyStrip raw
    if pathSuffix p = "" then none
    else if (supportedFormats.contains (pyLower (pathSuffix p))) = false then none
    else some ⟨p⟩

/-! ## Card entity (`card.py`) -/

/-- Embeds `Card` entity.  `id` models `uuid.UUID`; timestamps are `Nat`.  The
field for the `example` value object is called `exampl` (`example` is a
Lean keyword). -/
structure Card where
  id : Nat
  word : Word
  translation : Translation
  exampl : Exmpl
  audioPath : Option AudioPath := none
  context : String := ""
  deckId : Option Nat := none
  createdAt : Nat := 0
  updatedAt : Nat := 0
  deriving DecidableEq, Repr

/-- Embeds `Card.assign_to_deck`: set the deck reference and bump `updated_at`. -/
def Card.assignToDeck (c : Card) (deckId : Nat) (now : Nat) : Card :=
  { c with deckId := some deckId, updatedAt := now }

/-- Embeds `Card.update_translation`: rejected (ValueError) when the stripped new
value equals the stripped current value; otherwise replaces the translation
and bumps `updated_at`. -/
def Card.updateTranslation (c : Card) (nt : Translation) (now : Nat) :
    Except String Card :=
  if pyStrip nt.value = pyStrip c.translation.value then
    Except.error "New translation must be different from current"
  else
    Except.ok { c with translation := nt, updatedAt := now }

/-! ## GenerationSession entity (`generation_session.py`) -/

/-- Embeds `GenerationStatus` enum. -/
inductive GenerationStatus where
  | pending
  | inProgress
  | completed
  | failed
  | cancelled
  deriving DecidableEq, Repr

/-- Embeds `GenerationSession` entity.  `deck_id` is required (never `None`). -/
structure GenerationSession where
  id : Nat
  context : String
  deckId : Nat
  status : GenerationStatus := GenerationStatus.pending
  generatedCards : List Card := []
  maxCards : Nat := 10
  createdAt : Nat := 0
  updatedAt : Nat := 0
  completedAt : Option Nat := none
  errorMessage : Option String := none
  deriving DecidableEq, Repr

/-- Embeds `cards_generated_count`. -/
def GenerationSession.cardsGeneratedCount (s : GenerationSession) : Nat :=
  s.generatedCards.length

/-- Embeds `is_pending`. -/
def GenerationSession.isPending (s : GenerationSession) : Bool :=
  s.status = GenerationStatus.pending

/-- Embeds `is_in_progress`. -/
def GenerationSession.isInProgress (s : GenerationSession) : Bool :=
  s.status = GenerationStatus.inProgress

/-- Embeds `is_finished`: status in `[COMPLETED, FAILED, CANCELLED]`. -/
def GenerationSession.isFinished (s : GenerationSession) : Bool :=
  s.status = GenerationStatus.completed || s.status = GenerationStatus.failed ||
    s.status = GenerationStatus.cancelled

/-- Embeds `can_add_cards`: status in `[PENDING, IN_PROGRESS]` and the generated
count strictly below `max_cards`. -/
def GenerationSession.canAddCards (s : GenerationSession) : Bool :=
  (s.status = GenerationStatus.pending || s.status = GenerationStatus.inProgress) &&
    s.cardsGeneratedCount < s.maxCards

/-- Embeds `start_generation`: legal only from `PENDING`; sets `IN_PROGRESS`. -/
def GenerationSession.startGeneration (s : GenerationSession) (now : Nat) :
    Except String GenerationSession :=
  if s.isPending = false then
    Except.error "Cannot start generation"
  else
    Except.ok { s with status := GenerationStatus.inProgress, updatedAt := now }

/-- Embeds `add_generated_card`: requires `can_add_cards`; assigns the card to the
session deck, appends it and bumps the timestamp.  (The Python `card is
None` check has no counterpart: a Lean `Card` can not be null.) -/
def GenerationSession.addGeneratedCard (s : GenerationSession) (card : Card)
    (now : Nat) : Except String GenerationSession :=
  if s.canAddCards = false then
    Except.error "Cannot add card"
  else
    Except.ok { s with
      generatedCards := s.generatedCards ++ [card.assignToDeck s.deckId now],
      updatedAt := now }

/-- Embeds `complete_generation`: legal only from `IN_PROGRESS` with at least one
generated card; sets `COMPLETED` and stamps `completed_at`. -/
def GenerationSession.completeGeneration (s : GenerationSession) (now : Nat) :
    Except String GenerationSession :=
  if s.isInProgress = false then
    Except.error "Cannot complete generation"
  else if s.cardsGeneratedCount = 0 then
    Except.error "Cannot complete generation without any cards"
  else
    Except.ok { s with
      status := GenerationStatus.completed,
      completedAt := some now, updatedAt := now }

/-- Embeds `fail_generation`: rejected from any finished state; otherwise sets
`FAILED`, records the message and stamps `completed_at`. -/
def GenerationSession.failGeneration (s : GenerationSession) (msg : String)
    (now : Nat) : Except String GenerationSession :=
  if s.isFinished then
    Except.error "Cannot fail generation"
  else
    Except.ok { s with
      status := GenerationStatus.failed,
      errorMessage := some msg, completedAt := some now, updatedAt := now }

/-- Embeds `cancel_generation`: rejected from any finished state; otherwise sets
`CANCELLED` and stamps `completed_at`. -/
def GenerationSession.cancelGeneration (s : GenerationSession) (now : Nat) :
    Except String GenerationSession :=
  if s.isFinished then
    Except.error "Cannot cancel generation"
  else
    Except.ok { s with
      status := GenerationStatus.cancelled,
      completedAt := some now, updatedAt := now }

/-- The status an observer sees after running a lifecycle call: the new
status on success, the unchanged caller state on a raised error. -/
def statusAfter (s : GenerationSession) (r : Except String GenerationSession) :
    GenerationStatus :=
  match r with
  | Except.ok s' => s'.status
  | Except.error _ => s.status

/-! ## `difflib.SequenceMatcher.ratio`

The duplicate-detection service scores strings with
`SequenceMatcher(None, a, b).ratio()`: twice the total size of the
matching blocks divided by the total length.  The embedding below follows
the library algorithm (recursive longest-matching-block decomposition,
maximal block chosen with smallest start in `a`, then smallest start in
`b`) without the `autojunk` popularity heuristic, which is inert for the
strings handled here (it only activates on strings of 200 characters or
more) and never changes the score of identical strings. -/

/-- Length of the longest common prefix of two character lists. -/
def cpl : List Char → List Char → Nat
  | x :: xs, y :: ys => if x = y then cpl xs ys + 1 else 0
  | _, _ => 0

theorem cpl_le_left : ∀ a b : List Char, cpl a b ≤ a.length := by
  intro a
  induction a with
  | nil => intro b; cases b <;> simp [cpl]
  | cons x xs ih =>
    intro b
    cases b with
    | nil => simp [cpl]
    | cons y ys =>
      by_cases h : x = y
      · simpa [cpl, h] using ih ys
      · simp [cpl, h]

theorem cpl_self : ∀ a : List Char, cpl a a = a.length := by
  intro a
  induction a with
  | nil => rfl
  | cons x xs ih => simp [cpl, ih]

/-- The candidate block starts `(i, j)`, enumerated in the order the library
scans them. -/
def matchPairs (a b : List Char) : List (Nat × Nat) :=
  (List.range (a.length + 1)).flatMap
    (fun i => (List.range (b.length + 1)).map (fun j => (i, j)))

/-- One step of the longest-match scan: a candidate replaces the incumbent
only when its common-prefix length is strictly larger, so the first
maximal block in scan order wins. -/
def lmStep (a b : List Char) (best : Nat × Nat × Nat) (p : Nat × Nat) :
    Nat × Nat × Nat :=
  if best.2.2 < cpl (a.drop p.1) (b.drop p.2) then
    (p.1, p.2, cpl (a.drop p.1) (b.drop p.2))
  else best

/-- Embeds `find_longest_match` over the whole of `a` and `b` (junk-free case):
the size-maximal common block, earliest start in `a`, then earliest start
in `b`; `(0, 0, 0)` when nothing matches. -/
def longestMatch (a b : List Char) : Nat × Nat × Nat :=
  (matchPairs a b).foldl (lmStep a b) (0, 0, 0)

theorem matchPairs_head (a b : List Char) :
    ∃ t, matchPairs a b = (0, 0) :: t := by
  refine ⟨((List.range b.length).map Nat.succ).map (fun j => ((0 : Nat), j)) ++
    ((List.range a.length).map Nat.succ).flatMap
      (fun i => (List.range (b.length + 1)).map (fun j => (i, j))), ?_⟩
  rw [matchPairs, List.range_succ_eq_map, List.flatMap_cons]
  rw [List.range_succ_eq_map, List.map_cons, List.cons_append]

/-- In a fold of `lmStep`, an incumbent at least as large as every
remaining candidate survives to the end. -/
theorem foldl_lmStep_const (a b : List Char) :
    ∀ (ps : List (Nat × Nat)) (best : Nat × Nat × Nat),
      (∀ p ∈ ps, cpl (a.drop p.1) (b.drop p.2) ≤ best.2.2) →
      ps.foldl (lmStep a b) best = best := by
  intro ps
  induction ps with
  | nil => intro best _; rfl
  | cons p t ih =>
    intro best h
    have hp : cpl (a.drop p.1) (b.drop p.2) ≤ best.2.2 :=
      h p (List.mem_cons_self p t)
    have hstep : lmStep a b best p = best := by
      unfold lmStep
      exact if_neg (Nat.not_lt.mpr hp)
    rw [List.foldl_cons, hstep]
    exact ih best (fun q hq => h q (List.mem_cons_of_mem p hq))

/-- The reported block size always equals the common-prefix length at the
reported starts. -/
theorem foldl_lmStep_cpl (a b : List Char) :
    ∀ (ps : List (Nat × Nat)) (best : Nat × Nat × Nat),
      best.2.2 = cpl (a.drop best.1) (b.drop best.2.1) →
      (ps.foldl (lmStep a b) best).2.2 =
        cpl (a.drop (ps.foldl (lmStep a b) best).1)
          (b.drop (ps.foldl (lmStep a b) best).2.1) := by
  intro ps
  induction ps with
  | nil => intro best h; exact h
  | cons p t ih =>
    intro best h
    rw [List.foldl_cons]
    refine ih _ ?_
    unfold lmStep
    by_cases hlt : best.2.2 < cpl (a.drop p.1) (b.drop p.2)
    · rw [if_pos hlt]
    · rw [if_neg hlt]
      exact h

theorem lmStep_first (a b : List Char) :
    lmStep a b (0, 0, 0) (0, 0) = (0, 0, cpl a b) := by
  unfold lmStep
  by_cases h0 : (((0 : Nat), (0 : Nat), (0 : Nat)) : Nat × Nat × Nat).2.2 <
      cpl (a.drop 0) (b.drop 0)
  · rw [if_pos h0]
    simp
  · rw [if_neg h0]
    have hz : cpl (a.drop 0) (b.drop 0) = 0 := Nat.eq_zero_of_not_pos h0
    simp only [List.drop_zero] at hz
    rw [hz]

theorem longestMatch_cpl (a b : List Char) :
    (longestMatch a b).2.2 =
      cpl (a.drop (longestMatch a b).1) (b.drop (longestMatch a b).2.1) := by
  obtain ⟨t, ht⟩ := matchPairs_head a b
  unfold longestMatch
  rw [ht, List.foldl_cons, lmStep_first]
  refine foldl_lmStep_cpl a b t _ ?_
  simp

/-- Total size of the matching blocks: recursive decomposition around the
longest match, as in `SequenceMatcher.get_matching_blocks`. -/
def matchedSize (a b : List Char) : Nat :=
  if (longestMatch a b).2.2 = 0 then 0
  else
    (longestMatch a b).2.2 +
      matchedSize (a.take (longestMatch a b).1)
        (b.take (longestMatch a b).2.1) +
      matchedSize (a.drop ((longestMatch a b).1 + (longestMatch a b).2.2))
        (b.drop ((longestMatch a b).2.1 + (longestMatch a b).2.2))
termination_by a.length
decreasing_by
  · have hc := longestMatch_cpl a b
    have hle : (longestMatch a b).2.2 ≤ a.length - (longestMatch a b).1 := by
      calc (longestMatch a b).2.2
          = cpl (a.drop (longestMatch a b).1) (b.drop (longestMatch a b).2.1) := hc
        _ ≤ (a.drop (longestMatch a b).1).length := cpl_le_left _ _
        _ = a.length - (longestMatch a b).1 := List.length_drop _ _
    simp only [List.length_take]
    omega
  · have hc := longestMatch_cpl a b
    have hle : (longestMatch a b).2.2 ≤ a.length - (longestMatch a b).1 := by
      calc (longestMatch a b).2.2
          = cpl (a.drop (longestMatch a b).1) (b.drop (longestMatch a b).2.1) := hc
        _ ≤ (a.drop (longestMatch a b).1).length := cpl_le_left _ _
        _ = a.length - (longestMatch a b).1 := List.length_drop _ _
    simp only [List.length_drop]
    omega

/-- Embeds `SequenceMatcher.ratio`: `2 * M / T`, and `1.0` when both strings are
empty (`T == 0`).  Python floats are modelled by exact rationals. -/
def ratioL (a b : List Char) : ℚ :=
  if a.length + b.length = 0 then 1
  else 2 * (matchedSize a b : ℚ) / ((a.length : ℚ) + (b.length : ℚ))

/-- Embeds `ratio` on strings. -/
def ratioQ (a b : String) : ℚ := ratioL a.toList b.toList

theorem longestMatch_self (a : List Char) :
    longestMatch a a = (0, 0, a.length) := by
  obtain ⟨t, ht⟩ := matchPairs_head a a
  unfold longestMatch
  rw [ht, List.foldl_cons, lmStep_first, cpl_self]
  refine foldl_lmStep_const a a t (0, 0, a.length) ?_
  intro p _
  calc cpl (a.drop p.1) (a.drop p.2) ≤ (a.drop p.1).length := cpl_le_left _ _
    _ ≤ a.length := by
        rw [List.length_drop]; omega

theorem longestMatch_nil : longestMatch [] [] = (0, 0, 0) := by decide

theorem matchedSize_nil : matchedSize [] [] = 0 := by
  rw [matchedSize]
  rw [if_pos (show (longestMatch [] []).2.2 = 0 by rw [longestMatch_nil])]

theorem matchedSize_self (a : List Char) : matchedSize a a = a.length := by
  by_cases ha : a = []
  · subst ha
    simpa using matchedSize_nil
  · have hlm := longestMatch_self a
    have hlen : 0 < a.length := List.length_pos.mpr ha
    have hne : a.length ≠ 0 := Nat.pos_iff_ne_zero.mp hlen
    rw [matchedSize]
    simp only [hlm]
    rw [if_neg hne]
    simp [matchedSize_nil]

theorem ratioL_self (a : List Char) : ratioL a a = 1 := by
  by_cases ha : a = []
  · subst ha; simp [ratioL]
  · have hlen : 0 < a.length := List.length_pos.mpr ha
    have hne : (a.length : ℚ) ≠ 0 := by
      exact_mod_cast Nat.pos_iff_ne_zero.mp hlen
    unfold ratioL
    rw [if_neg (by omega)]
    rw [matchedSize_self]
    field_simp
    ring

theorem ratioQ_self (s : String) : ratioQ s s = 1 := ratioL_self s.toList

/-! ## DuplicateDetectionService (`duplicate_detection_service.py`)

The repository collaborator is an external dependency: the candidate
cards a query fetches are passed in as an explicit list, in fetch order. -/

/-- Embeds `_calculate_similarity` under EXACT rational arithmetic: word
similarity weighted 0.6, translation similarity 0.3, example similarity
0.1, each a `ratio` of the normalized fields.  The CPython program
evaluates the same expression in IEEE-754 binary64; `calcSimilarityFP`
below models that rounding, which matters exactly where a claim asserts
float equality (claim C5). -/
def calcSimilarity (c1 c2 : Card) : ℚ :=
  ratioQ c1.word.normalized c2.word.normalized * 0.6 +
    ratioQ c1.translation.normalized c2.translation.normalized * 0.3 +
    ratioQ c1.exampl.originalNormalized c2.exampl.originalNormalized * 0.1

/-- Round a rational to the nearest integer, ties to even (the IEEE-754
default rounding applied to a value scaled into integer position). -/
def rne (q : ℚ) : ℤ :=
  if q - ⌊q⌋ < 1/2 then ⌊q⌋
  else if 1/2 < q - ⌊q⌋ then ⌊q⌋ + 1
  else if ⌊q⌋ % 2 = 0 then ⌊q⌋ else ⌊q⌋ + 1

/-- Round a positive rational to the nearest IEEE-754 binary64 value
(53-bit significand, round to nearest, ties to even), represented as the
dyadic rational it denotes: the value is scaled by a power of two into
`[2^52, 2^53)`, rounded to an integer with `rne`, and scaled back.
Negative inputs, zero, subnormals and overflow never arise in the
similarity computation and are out of scope (nonpositive input maps
to 0). -/
def fl64 (x : ℚ) : ℚ :=
  if x ≤ 0 then 0
  else (rne (x * 2 ^ (52 - Int.log 2 x)) : ℚ) / 2 ^ (52 - Int.log 2 x)

/-- The binary64 value of the literal `0.6` in the source. -/
def dbl06 : ℚ := fl64 (6/10)

/-- The binary64 value of the literal `0.3` in the source. -/
def dbl03 : ℚ := fl64 (3/10)

/-- The binary64 value of the literal `0.1` in the source. -/
def dbl01 : ℚ := fl64 (1/10)

/-- One CPython float multiplication: exact product, then binary64
rounding. -/
def fpMul (x y : ℚ) : ℚ := fl64 (x * y)

/-- One CPython float addition: exact sum, then binary64 rounding. -/
def fpAdd (x y : ℚ) : ℚ := fl64 (x + y)

/-- Embeds difflib `_calculate_ratio` under binary64 semantics:
`2.0 * matches / length` with `matches` and `length` converted from int
to float, the product and the quotient each rounded; `1.0` when both
strings are empty. -/
def ratioFPL (a b : List Char) : ℚ :=
  if a.length + b.length = 0 then 1
  else fl64 (fl64 (2 * fl64 (matchedSize a b : ℚ)) /
    fl64 ((a.length : ℚ) + (b.length : ℚ)))

/-- Embeds the binary64 `ratio` on strings. -/
def ratioFPQ (a b : String) : ℚ := ratioFPL a.toList b.toList

/-- Embeds `_calculate_similarity` under the binary64 semantics the
program actually runs: each similarity is the float `ratio`, each weight
is the binary64 value of its decimal literal, and every multiplication
and addition rounds, associating left as in the source expression
`w*0.6 + t*0.3 + e*0.1`. -/
def calcSimilarityFP (c1 c2 : Card) : ℚ :=
  fpAdd
    (fpAdd (fpMul (ratioFPQ c1.word.normalized c2.word.normalized) dbl06)
      (fpMul (ratioFPQ c1.translation.normalized c2.translation.normalized) dbl03))
    (fpMul (ratioFPQ c1.exampl.originalNormalized c2.exampl.originalNormalized) dbl01)

/-- Embeds `_normalize_text`: empty for falsy input, else lowercase, strip
punctuation (keep word characters and whitespace), collapse whitespace
runs, strip. -/
def normalizeText (s : String) : String :=
  if s = "" then ""
  else
    let kept := (pyLower s).toList.filter
      (fun c => c.isAlphanum || c = '_' || c.isWhitespace)
    pyStrip (String.mk (squashWs kept))

/-- Embeds `are_translations_similar`: ratio of the two normalised texts at least
the threshold (0.8 at the call sites). -/
def areTranslationsSimilar (t1 t2 : String) (threshold : ℚ) : Bool :=
  threshold ≤ ratioQ (normalizeText t1) (normalizeText t2)

/-- Score order used by `duplicates.sort(key=lambda x: x[1], reverse=True)`:
`x` precedes `y` when the similarity of `x` is at least that of `y`. -/
def simGE (x y : Card × ℚ) : Prop := y.2 ≤ x.2

instance : DecidableRel simGE :=
  fun x y => inferInstanceAs (Decidable (y.2 ≤ x.2))

instance : IsTotal (Card × ℚ) simGE := ⟨fun a b => le_total b.2 a.2⟩

instance : IsTrans (Card × ℚ) simGE := ⟨fun _ _ _ hab hbc => le_trans hbc hab⟩

/-- The loop of `find_duplicates_for_card`, before the sort: walk the
fetched candidates in order, skip the card itself (same id), and append
`(candidate, score)` whenever the score reaches the threshold. -/
def dupCandidates (card : Card) (existingCards : List Card)
    (threshold : ℚ) : List (Card × ℚ) :=
  existingCards.filterMap (fun e =>
    if e.id = card.id then none
    else if threshold ≤ calcSimilarity card e then some (e, calcSimilarity card e)
    else none)

/-- Embeds `find_duplicates_for_card`, after the candidate fetch.  Python
`list.sort(key=..., reverse=True)` is a stable descending sort, embedded
as `List.insertionSort` with the `≥`-on-score relation (which inserts each
element behind none of its equal-score predecessors). -/
def findDuplicatesForCard (card : Card) (existingCards : List Card)
    (threshold : ℚ) : List (Card × ℚ) :=
  List.insertionSort simGE (dupCandidates card existingCards threshold)

/-- Problem message for an exact normalized-word duplicate.  The Python
f-string text is transliterated (accents and quote characters dropped). -/
def dupWordProblem (card e : Card) : String :=
  "Palavra " ++ card.word.value ++ " ja existe no card " ++ toString e.id

/-- Problem message for weighted similarity above 0.9.  The interpolated
2-decimal similarity figure of the Python message is not reproduced. -/
def similarCardProblem (e : Card) : String :=
  "Card muito similar ao card " ++ toString e.id

/-- Problem message for a similar translation. -/
def similarTranslationProblem (e : Card) : String :=
  "Traducao muito similar ao card " ++ toString e.id

/-- The loop body of `validate_card_uniqueness` for one existing card: an
exact normalized-word match records one problem and `continue`s (skipping
the similarity and translation checks for that card); otherwise the
similarity check (strictly above 0.9) and the translation check
(threshold 0.8) each may record one problem. -/
def perCardProblems (card e : Card) : List String :=
  if card.word.normalized = e.word.normalized then [dupWordProblem card e]
  else
    (if (0.9 : ℚ) < calcSimilarity card e then [similarCardProblem e] else []) ++
      (if areTranslationsSimilar card.translation.value e.translation.value 0.8
        then [similarTranslationProblem e] else [])

/-- The problem list accumulated by the `validate_card_uniqueness` loop. -/
def uniquenessProblems (card : Card) (existingCards : List Card) : List String :=
  existingCards.flatMap (perCardProblems card)

/-- Embeds `validate_card_uniqueness`: `(is_unique, problems)` with
`is_unique = (len(problems) == 0)`. -/
def validateCardUniqueness (card : Card) (existingCards : List Card) :
    Bool × List String :=
  let problems := uniquenessProblems card existingCards
  (problems.length == 0, problems)

/-! ## CardQualityService (`card_quality_service.py`) -/

/-- Embeds `QualityLevel` enum. -/
inductive QualityLevel where
  | excellent
  | good
  | fair
  | poor
  | invalid
  deriving DecidableEq, Repr

/-- The `metrics` mapping of a report: sub-metric name to score, in
insertion order word / translation / example / diversity. -/
structure QualityMetrics where
  wordScore : ℚ
  translationScore : ℚ
  exampleScore : ℚ
  diversityScore : ℚ
  deriving DecidableEq, Repr

/-- Embeds `QualityReport` dataclass. -/
structure QualityReport where
  card : Card
  overallScore : ℚ
  qualityLevel : QualityLevel
  issues : List String
  suggestions : List String
  metrics : QualityMetrics
  deriving Repr

/-- The `max(0.0, min(1.0, score))` clamp every sub-score goes through. -/
def clamp01 (x : ℚ) : ℚ := max 0 (min 1 x)

/-- The fixed stop-word set of `_evaluate_word`. -/
def commonWords : List String :=
  ["the", "and", "or", "but", "in", "on", "at", "to", "for", "of", "with", "by"]

/-- Embeds `_evaluate_word`: start at 1.0, deduct 0.3/0.2 for bad length, 0.4 for
non-alphabetic content, 0.2 for a stop word, 0.3 for more than 5 tokens;
clamp to [0, 1].  Messages are transliterated without accents. -/
def evaluateWordRaw (word : String) : ℚ × List String × List String :=
  let score : ℚ := 1
  let issues : List String := []
  let suggestions : List String := []
  let (score, issues) :=
    if word.length < 3 then
      (score - 0.3,
        issues ++ ["Palavra muito curta (" ++ toString word.length ++ " caracteres)"])
    else if word.length > 50 then
      (score - 0.2,
        issues ++ ["Palavra muito longa (" ++ toString word.length ++ " caracteres)"])
    else (score, issues)
  let (score, issues) :=
    if pyIsAlpha (removeChar word ' ') = false then
      (score - 0.4, issues ++ ["Palavra contem caracteres invalidos"])
    else (score, issues)
  let (score, issues, suggestions) :=
    if commonWords.contains (pyLower word) then
      (score - 0.2, issues ++ ["Palavra muito comum, considere algo mais especifico"],
        suggestions ++ ["Use palavras mais especificas e uteis para aprendizado"])
    else (score, issues, suggestions)
  let (score, issues, suggestions) :=
    if (pySplit word).length > 5 then
      (score - 0.3,
        issues ++ ["Frase muito longa, considere usar uma palavra ou frase mais curta"],
        suggestions ++ ["Mantenha foco em uma palavra ou frase curta"])
    else (score, issues, suggestions)
  (score, issues, suggestions)

/-- Embeds `_evaluate_word`, with the final `max(0.0, min(1.0, score))`. -/
def evaluateWord (word : String) : ℚ × List String × List String :=
  (clamp01 (evaluateWordRaw word).1, (evaluateWordRaw word).2.1,
    (evaluateWordRaw word).2.2)

/-- The generic filler terms of `_evaluate_translation`. -/
def genericTranslations : List String := ["coisa", "algo", "item", "objeto", "elemento"]

/-- Embeds `_evaluate_translation`: deduct 0.4/0.2 for bad length, 0.3 for
non-alphabetic content (spaces, commas, semicolons and parentheses
allowed), add 0.1 for multiple alternatives, deduct 0.2 for generic
fillers; clamp to [0, 1]. -/
def evaluateTranslationRaw (translation : String) : ℚ × List String × List String :=
  let score : ℚ := 1
  let issues : List String := []
  let suggestions : List String := []
  let (score, issues) :=
    if translation.length < 2 then
      (score - 0.4,
        issues ++ ["Traducao muito curta (" ++ toString translation.length ++ " caracteres)"])
    else if translation.length > 100 then
      (score - 0.2,
        issues ++ ["Traducao muito longa (" ++ toString translation.length ++ " caracteres)"])
    else (score, issues)
  let cleaned :=
    removeChar (removeChar (removeChar (removeChar (removeChar translation ' ') ',') ';') '(') ')'
  let (score, issues) :=
    if pyIsAlpha cleaned = false then
      (score - 0.3, issues ++ ["Traducao contem caracteres invalidos"])
    else (score, issues)
  let (score, suggestions) :=
    if strContains translation "," || strContains translation ";" then
      (score + 0.1, suggestions ++ ["Boa! Multiplas traducoes aumentam o valor do card"])
    else (score, suggestions)
  let (score, issues, suggestions) :=
    if genericTranslations.any (fun g => strContains (pyLower translation) g) then
      (score - 0.2, issues ++ ["Traducao muito generica"],
        suggestions ++ ["Use traducoes mais especificas e precisas"])
    else (score, issues, suggestions)
  (score, issues, suggestions)

/-- Embeds `_evaluate_translation`, with the final clamp. -/
def evaluateTranslation (translation : String) : ℚ × List String × List String :=
  (clamp01 (evaluateTranslationRaw translation).1,
    (evaluateTranslationRaw translation).2.1,
    (evaluateTranslationRaw translation).2.2)

/-- The generic sentence openers of `_evaluate_example`. -/
def genericExamples : List String :=
  ["this is a", "that is a", "it is a", "here is a", "there is a"]

/-- Embeds `_evaluate_example`: deduct 0.4/0.2 for bad original length, 0.3 for a
short translated sentence, 0.3 for a generic opener; add the 0.1 any-token
baseline; clamp to [0, 1]. -/
def evaluateExampleRaw (original translated : String) : ℚ × List String × List String :=
  let score : ℚ := 1
  let issues : List String := []
  let suggestions : List String := []
  let (score, issues) :=
    if original.length < 10 then
      (score - 0.4,
        issues ++ ["Exemplo muito curto (" ++ toString original.length ++ " caracteres)"])
    else if original.length > 200 then
      (score - 0.2,
        issues ++ ["Exemplo muito longo (" ++ toString original.length ++ " caracteres)"])
    else (score, issues)
  let (score, issues) :=
    if translated.length < 10 then
      (score - 0.3,
        issues ++ ["Traducao do exemplo muito curta (" ++ toString translated.length ++ " caracteres)"])
    else (score, issues)
  let (score, issues, suggestions) :=
    if genericExamples.any (fun g => strContains (pyLower original) g) then
      (score - 0.3, issues ++ ["Exemplo muito generico"],
        suggestions ++ ["Use exemplos mais especificos e contextualizados"])
    else (score, issues, suggestions)
  let score :=
    if (pySplit (pyLower original)).length > 0 then score + 0.1 else score
  (score, issues, suggestions)

/-- Embeds `_evaluate_example`, with the final clamp. -/
def evaluateExample (original translated : String) : ℚ × List String × List String :=
  (clamp01 (evaluateExampleRaw original translated).1,
    (evaluateExampleRaw original translated).2.1,
    (evaluateExampleRaw original translated).2.2)

/-- Embeds `_evaluate_diversity`: `1 - similar/total` clamped to [0, 1], where a
context card is similar when it shares the normalized word or, failing
that, the normalized translation; 1.0 for an empty context. -/
def evaluateDiversity (card : Card) (contextCards : List Card) : ℚ :=
  if contextCards.isEmpty then 1
  else
    let similarCount := contextCards.countP (fun cc =>
      card.word.normalized == cc.word.normalized ||
        card.translation.normalized == cc.translation.normalized)
    clamp01 (1 - (similarCount : ℚ) / (contextCards.length : ℚ))

/-- Embeds `_determine_quality_level`: first matching tier wins. -/
def determineQualityLevel (score : ℚ) (issues : List String) : QualityLevel :=
  if 0.9 ≤ score ∧ issues.length = 0 then QualityLevel.excellent
  else if 0.8 ≤ score ∧ issues.length ≤ 1 then QualityLevel.good
  else if 0.6 ≤ score ∧ issues.length ≤ 3 then QualityLevel.fair
  else if 0.4 ≤ score then QualityLevel.poor
  else QualityLevel.invalid

/-- Embeds `evaluate_card`: the four sub-scores (diversity defaulting to 1.0 for a
missing/empty context list), the weighted overall score and the tier. -/
def evaluateCard (card : Card) (contextCards : List Card) : QualityReport :=
  let w := evaluateWord card.word.value
  let t := evaluateTranslation card.translation.value
  let e := evaluateExample card.exampl.original card.exampl.translated
  let diversityScore :=
    if contextCards.isEmpty then 1 else evaluateDiversity card contextCards
  let issues := w.2.1 ++ t.2.1 ++ e.2.1
  let suggestions := w.2.2 ++ t.2.2 ++ e.2.2
  let overall := w.1 * 0.2 + t.1 * 0.3 + e.1 * 0.4 + diversityScore * 0.1
  { card := card, overallScore := overall,
    qualityLevel := determineQualityLevel overall issues,
    issues := issues, suggestions := suggestions,
    metrics := ⟨w.1, t.1, e.1, diversityScore⟩ }

/-! ## Serialized record shapes (`to_dict` / `from_dict`)

Each `to_dict` emits the raw value plus derived fields; each `from_dict`
reads back only the raw value and re-runs the validating constructor.
`str(uuid)` / `uuid.UUID(...)` and `isoformat` / `fromisoformat` are
mutually inverse and are modelled as the identity on the `Nat` ids and
timestamps. -/

/-- Embeds `Word.word_count`: `len(self.value.split())`. -/
def Word.wordCount (w : Word) : Nat := (pySplit w.value).length

/-- The record shape of `Word.to_dict`. -/
structure WordRec where
  value : String
  normalized : String
  length : Nat
  wordCount : Nat
  deriving DecidableEq, Repr

/-- Embeds `Word.to_dict`. -/
def Word.toDict (w : Word) : WordRec :=
  ⟨w.value, w.normalized, w.value.length, w.wordCount⟩

/-- Embeds `Word.from_dict`: rebuild from the raw `value` field alone. -/
def WordRec.toWord (d : WordRec) : Option Word := Word.create d.value

/-- Embeds `Translation.primary_translation`. -/
def Translation.primaryTranslation (t : Translation) : String :=
  match t.translationsList with
  | [] => t.value
  | p :: _ => p

/-- Embeds `Translation.alternative_translations`. -/
def Translation.alternativeTranslations (t : Translation) : List String :=
  if t.translationsList.length > 1 then t.translationsList.drop 1 else []

/-- The record shape of `Translation.to_dict`. -/
structure TranslationRec where
  value : String
  normalized : String
  translationsList : List String
  primaryTranslation : String
  alternativeTranslations : List String
  translationCount : Nat
  deriving DecidableEq, Repr

/-- Embeds `Translation.to_dict`. -/
def Translation.toDict (t : Translation) : TranslationRec :=
  ⟨t.value, t.normalized, t.translationsList, t.primaryTranslation,
    t.alternativeTranslations, t.translationsList.length⟩

/-- Embeds `Translation.from_dict`. -/
def TranslationRec.toTranslation (d : TranslationRec) : Option Translation :=
  Translation.create d.value

/-- The record shape of `Example.to_dict`. -/
structure ExmplRec where
  original : String
  translated : String
  originalNormalized : String
  translatedNormalized : String
  wordCountOriginal : Nat
  wordCountTranslated : Nat
  lengthOriginal : Nat
  lengthTranslated : Nat
  deriving DecidableEq, Repr

/-- Embeds `Example.to_dict`. -/
def Exmpl.toDict (e : Exmpl) : ExmplRec :=
  ⟨e.original, e.translated, e.originalNormalized, e.translatedNormalized,
    (pySplit e.original).length, (pySplit e.translated).length,
    e.original.length, e.translated.length⟩

/-- Embeds `Example.from_dict`. -/
def ExmplRec.toExmpl (d : ExmplRec) : Option Exmpl :=
  Exmpl.create d.original d.translated

/-- Embeds `str(Path(p).parent)` for slash-separated relative paths. -/
def pathDirectory (p : String) : String :=
  let parts := pySplitOn p '/'
  if parts.length ≤ 1 then "." else String.intercalate "/" parts.dropLast

/-- Embeds `Path(p).stem`: the final component without its suffix. -/
def pathStem (p : String) : String :=
  let n := pathName p
  String.mk (n.toList.take (n.length - (pathSuffix p).length))

/-- The record shape of `AudioPath.to_dict`.  The filesystem-dependent
fields (`exists`, `size_bytes`) are outside the pure core and are not
modelled; `from_dict` ignores them. -/
structure AudioRec where
  path : String
  filename : String
  directory : String
  extension : String
  stem : String
  deriving DecidableEq, Repr

/-- Embeds `AudioPath.to_dict` (minus the filesystem probes). -/
def AudioPath.toDict (a : AudioPath) : AudioRec :=
  ⟨a.path, pathName a.path, pathDirectory a.path,
    pyLower (pathSuffix a.path), pathStem a.path⟩

/-- Embeds `AudioPath.from_dict`. -/
def AudioRec.toAudioPath (d : AudioRec) : Option AudioPath :=
  AudioPath.create d.path

/-- The record shape of `Card.to_dict`. -/
structure CardRec where
  id : Nat
  word : WordRec
  translation : TranslationRec
  exampl : ExmplRec
  audioPath : Option AudioRec
  context : String
  deckId : Option Nat
  createdAt : Nat
  updatedAt : Nat
  deriving DecidableEq, Repr

/-- Embeds `Card.to_dict`. -/
def Card.toDict (c : Card) : CardRec :=
  ⟨c.id, c.word.toDict, c.translation.toDict, c.exampl.toDict,
    c.audioPath.map AudioPath.toDict, c.context, c.deckId,
    c.createdAt, c.updatedAt⟩

/-- Embeds `Card.from_dict`: rebuild every value object through its validating
constructor, then re-run the `Card.__post_init__` validation. -/
def Card.fromDict (d : CardRec) : Option Card := do
  let w ← Word.create d.word.value
  let t ← Translation.create d.translation.value
  let e ← Exmpl.create d.exampl.original d.exampl.translated
  let a ← match d.audioPath with
    | none => some none
    | some ar => (AudioPath.create ar.path).map some
  if pyStrip w.value = "" then none
  else if pyStrip t.value = "" then none
  else if (pyStrip e.original).length < 10 then none
  else some ⟨d.id, w, t, e, a, d.context, d.deckId, d.createdAt, d.updatedAt⟩

/-! ## Well-formedness: the states reachable through the validating
constructors, phrased as executable fixed-point conditions. -/

/-- A `Word` as produced by `Word.__post_init__`: stripped, non-empty,
letters/whitespace/hyphens only, whitespace collapsed. -/
def Word.wf (w : Word) : Bool :=
  pyStrip w.value == w.value && !(w.value == "") &&
    w.value.toList.all wordCharOk && squashWs w.value.toList == w.value.toList

/-- A `Translation` as produced by `Translation.__post_init__`. -/
def Translation.wf (t : Translation) : Bool :=
  pyStrip t.value == t.value && !(t.value == "") &&
    squashWs t.value.toList == t.value.toList

/-- An `Example` as produced by `Example.__post_init__`. -/
def Exmpl.wf (e : Exmpl) : Bool :=
  pyStrip e.original == e.original && !(e.original == "") &&
    squashWs e.original.toList == e.original.toList &&
    pyStrip e.translated == e.translated && !(e.translated == "") &&
    squashWs e.translated.toList == e.translated.toList &&
    decide (10 ≤ e.original.length) && decide (10 ≤ e.translated.length)

/-- An `AudioPath` as produced by `AudioPath.__post_init__`. -/
def AudioPath.wf (a : AudioPath) : Bool :=
  pyStrip a.path == a.path && !(a.path == "") && !(pathSuffix a.path == "") &&
    supportedFormats.contains (pyLower (pathSuffix a.path))

/-- A valid `Card`: every component is in a constructor-produced state
(the `Card.__post_init__` checks follow from these). -/
def Card.wf (c : Card) : Bool :=
  c.word.wf && c.translation.wf && c.exampl.wf &&
    (match c.audioPath with
     | none => true
     | some a => a.wf)

/-- Whether a fallible call succeeded (Python: no exception raised). -/
def isOkE {α : Type} (r : Except String α) : Bool :=
  match r with
  | Except.ok _ => true
  | Except.error _ => false

/-! ## Sample entities used by the concrete witnesses -/

/-- A constructor-shaped word. -/
def wordAlgorithm : Word := ⟨"algorithm"⟩

/-- A constructor-shaped translation. -/
def translationAlgoritmo : Translation := ⟨"algoritmo"⟩

/-- A constructor-shaped example pair. -/
def exampleAlgo : Exmpl := ⟨"I use an algorithm.", "Eu uso um algoritmo."⟩

/-- A valid sample card. -/
def cardAlgo : Card :=
  { id := 1, word := wordAlgorithm, translation := translationAlgoritmo,
    exampl := exampleAlgo, audioPath := none, context := "tech",
    deckId := some 7, createdAt := 0, updatedAt := 0 }

/-- The same content under a different identity. -/
def cardAlgoTwin : Card := { cardAlgo with id := 2 }

/-- A card whose stored word is the `"Algorithm "` case/whitespace variant
after construction (`Word.create "Algorithm "` strips the blank). -/
def cardAlgoVariant : Card :=
  { cardAlgo with id := 3, word := ⟨"Algorithm"⟩ }

/-- A completed (terminal) sample session. -/
def sessionDone : GenerationSession :=
  { id := 10, context := "animals", deckId := 7,
    status := GenerationStatus.completed, generatedCards := [cardAlgo],
    maxCards := 2, createdAt := 0, updatedAt := 0,
    completedAt := some 4, errorMessage := none }

/-- A pending sample session with capacity 2 and no cards yet. -/
def sessionFresh : GenerationSession :=
  { id := 11, context := "animals", deckId := 7,
    status := GenerationStatus.pending, generatedCards := [],
    maxCards := 2, createdAt := 0, updatedAt := 0,
    completedAt := none, errorMessage := none }

/-- An in-progress sample session already holding `max_cards` cards. -/
def sessionFull : GenerationSession :=
  { sessionFresh with
    id := 12, status := GenerationStatus.inProgress,
    generatedCards := [cardAlgo, cardAlgoTwin] }

/-- An in-progress sample session with one card. -/
def sessionRunning : GenerationSession :=
  { sessionFresh with
    id := 13, status := GenerationStatus.inProgress,
    generatedCards := [cardAlgo] }

/-! ## Session lifecycle lemmas -/

theorem canAddCards_iff (s : GenerationSession) :
    s.canAddCards = true ↔
      ((s.status = GenerationStatus.pending ∨
          s.status = GenerationStatus.inProgress) ∧
        s.generatedCards.length < s.maxCards) := by
  simp [GenerationSession.canAddCards, GenerationSession.cardsGeneratedCount]

theorem isFinished_status (s : GenerationSession) (h : s.isFinished = true) :
    s.status = GenerationStatus.completed ∨ s.status = GenerationStatus.failed ∨
      s.status = GenerationStatus.cancelled := by
  simpa [GenerationSession.isFinished, or_assoc] using h

/-- C1: no lifecycle operation leaves a terminal state: on a finished
session every one of `start`, `add_generated_card`, `complete`, `fail`
and `cancel` raises, and the observable status stays the terminal value. -/
theorem C1_terminal_absorbing (s : GenerationSession) (card : Card)
    (msg : String) (now : Nat) (h : s.isFinished = true) :
    isOkE (s.startGeneration now) = false ∧
      statusAfter s (s.startGeneration now) = s.status ∧
    isOkE (s.addGeneratedCard card now) = false ∧
      statusAfter s (s.addGeneratedCard card now) = s.status ∧
    isOkE (s.completeGeneration now) = false ∧
      statusAfter s (s.completeGeneration now) = s.status ∧
    isOkE (s.failGeneration msg now) = false ∧
      statusAfter s (s.failGeneration msg now) = s.status ∧
    isOkE (s.cancelGeneration now) = false ∧
      statusAfter s (s.cancelGeneration now) = s.status := by
  rcases isFinished_status s h with h1 | h1 | h1 <;>
    simp [GenerationSession.startGeneration, GenerationSession.addGeneratedCard,
      GenerationSession.completeGeneration, GenerationSession.failGeneration,
      GenerationSession.cancelGeneration, GenerationSession.isPending,
      GenerationSession.isInProgress, GenerationSession.isFinished,
      GenerationSession.canAddCards, statusAfter, isOkE, h1]

/-- Witness for C1 at a concrete completed session. -/
theorem C1_terminal_absorbing_witness :
    isOkE (sessionDone.startGeneration 9) = false ∧
      isOkE (sessionDone.cancelGeneration 9) = false ∧
      statusAfter sessionDone (sessionDone.cancelGeneration 9) =
        GenerationStatus.completed :=
  ⟨(C1_terminal_absorbing sessionDone cardAlgo "boom" 9 (by decide)).1,
    (C1_terminal_absorbing sessionDone cardAlgo "boom" 9 (by decide)).2.2.2.2.2.2.2.2.1,
    (C1_terminal_absorbing sessionDone cardAlgo "boom" 9 (by decide)).2.2.2.2.2.2.2.2.2⟩

/-- C2: `add_generated_card` succeeds exactly when the status is PENDING
or IN_PROGRESS and the card count is strictly below `max_cards`; on
success the card is assigned to the session deck, appended, and the
timestamp bumped; otherwise the call raises (so the stored list is
untouched). -/
theorem C2_add_generated_card (s : GenerationSession) (card : Card) (now : Nat) :
    (isOkE (s.addGeneratedCard card now) = true ↔
      ((s.status = GenerationStatus.pending ∨
          s.status = GenerationStatus.inProgress) ∧
        s.generatedCards.length < s.maxCards)) ∧
    (s.canAddCards = true →
      s.addGeneratedCard card now = Except.ok { s with
        generatedCards := s.generatedCards ++
          [{ card with deckId := some s.deckId, updatedAt := now }],
        updatedAt := now }) ∧
    (s.canAddCards = false →
      ∃ m, s.addGeneratedCard card now = Except.error m) := by
  refine ⟨?_, ?_, ?_⟩
  · rw [← canAddCards_iff]
    by_cases hc : s.canAddCards
    · simp [GenerationSession.addGeneratedCard, hc, isOkE]
    · simp only [Bool.not_eq_true] at hc
      simp [GenerationSession.addGeneratedCard, hc, isOkE]
  · intro hc
    simp [GenerationSession.addGeneratedCard, hc, Card.assignToDeck]
  · intro hc
    refine ⟨"Cannot add card", ?_⟩
    simp [GenerationSession.addGeneratedCard, hc]

/-- Witness for C2: a PENDING session accepts a card (still pending, one
below capacity); the same session holding `max_cards = 2` cards rejects a
third. -/
theorem C2_add_generated_card_witness :
    isOkE (sessionFresh.addGeneratedCard cardAlgoTwin 3) = true ∧
      isOkE (sessionFull.addGeneratedCard cardAlgoVariant 3) = false :=
  ⟨(C2_add_generated_card sessionFresh cardAlgoTwin 3).1.mpr (by decide),
    by
      obtain ⟨m, hm⟩ := (C2_add_generated_card sessionFull cardAlgoVariant 3).2.2
        (by decide)
      rw [hm]
      rfl⟩

/-- C8: `complete` succeeds exactly from IN_PROGRESS with at least one
generated card; with zero cards it raises (status untouched); on success
it sets COMPLETED and stamps `completed_at`. -/
theorem C8_complete_generation (s : GenerationSession) (now : Nat) :
    (isOkE (s.completeGeneration now) = true ↔
      (s.status = GenerationStatus.inProgress ∧ s.generatedCards.length ≠ 0)) ∧
    (s.generatedCards.length = 0 →
      isOkE (s.completeGeneration now) = false ∧
        statusAfter s (s.completeGeneration now) = s.status) ∧
    (s.status = GenerationStatus.inProgress → s.generatedCards.length ≠ 0 →
      s.completeGeneration now = Except.ok { s with
        status := GenerationStatus.completed,
        completedAt := some now, updatedAt := now }) := by
  refine ⟨?_, ?_, ?_⟩
  · by_cases hp : s.isInProgress
    · have hst : s.status = GenerationStatus.inProgress := by
        simpa [GenerationSession.isInProgress] using hp
      by_cases hz : s.generatedCards.length = 0
      · simp [GenerationSession.completeGeneration, hp,
          GenerationSession.cardsGeneratedCount, hz, isOkE, hst]
      · simp [GenerationSession.completeGeneration, hp,
          GenerationSession.cardsGeneratedCount, hz, isOkE, hst]
    · have hst : ¬s.status = GenerationStatus.inProgress := by
        simpa [GenerationSession.isInProgress] using hp
      simp only [Bool.not_eq_true] at hp
      simp [GenerationSession.completeGeneration, hp, isOkE, hst]
  · intro hz
    by_cases hp : s.isInProgress
    · simp [GenerationSession.completeGeneration, hp,
        GenerationSession.cardsGeneratedCount, hz, isOkE, statusAfter]
    · simp only [Bool.not_eq_true] at hp
      simp [GenerationSession.completeGeneration, hp, isOkE, statusAfter]
  · intro hst hz
    have hp : s.isInProgress = true := by
      simp [GenerationSession.isInProgress, hst]
    simp [GenerationSession.completeGeneration, hp,
      GenerationSession.cardsGeneratedCount, hz]

/-- Witness for C8: completing an in-progress one-card session succeeds;
completing the fresh zero-card session raises. -/
theorem C8_complete_generation_witness :
    isOkE (sessionRunning.completeGeneration 6) = true ∧
      isOkE (sessionFresh.completeGeneration 6) = false :=
  ⟨(C8_complete_generation sessionRunning 6).1.mpr (by decide),
    ((C8_complete_generation sessionFresh 6).2.1 (by decide)).1⟩

/-! ## Card mutation: `update_translation` (claim C4) -/

/-- C4 counterexample: the source compares the *stripped* values
case-sensitively (`new.value.strip() == current.value.strip()`), not the
normalized (lowercased) forms the claim describes.  `"Algoritmo"` and the
stored `"algoritmo"` have equal normalized forms, yet the update succeeds
and replaces the translation. -/
theorem C4_counterexample :
    (Translation.mk "Algoritmo").normalized = cardAlgo.translation.normalized ∧
      cardAlgo.updateTranslation ⟨"Algoritmo"⟩ 9 =
        Except.ok { cardAlgo with translation := ⟨"Algoritmo"⟩, updatedAt := 9 } := by
  constructor
  · decide
  · rfl

/-- C4 amended: `update_translation` fails exactly when the stripped
(whitespace-trimmed, case-sensitive) new value equals the stripped current
value, leaving the card unreplaced (the call raises before any mutation);
otherwise it replaces the translation and bumps `updated_at`. -/
theorem C4_update_translation (c : Card) (nt : Translation) (now : Nat) :
    (pyStrip nt.value = pyStrip c.translation.value →
      c.updateTranslation nt now =
        Except.error "New translation must be different from current") ∧
    (pyStrip nt.value ≠ pyStrip c.translation.value →
      c.updateTranslation nt now =
        Except.ok { c with translation := nt, updatedAt := now }) := by
  constructor <;> intro h <;> simp [Card.updateTranslation, h]

/-- Witness for C4 at the sample card: the identical stripped value is
rejected, a genuinely different value is installed. -/
theorem C4_update_translation_witness :
    cardAlgo.updateTranslation ⟨"algoritmo"⟩ 9 =
      Except.error "New translation must be different from current" ∧
      cardAlgo.updateTranslation ⟨"casa"⟩ 9 =
        Except.ok { cardAlgo with translation := ⟨"casa"⟩, updatedAt := 9 } :=
  ⟨(C4_update_translation cardAlgo ⟨"algoritmo"⟩ 9).1 (by decide),
    (C4_update_translation cardAlgo ⟨"casa"⟩ 9).2 (by decide)⟩

/-! ## Value-object equality and hashing (claim C10) -/

/-- Embeds `Word.__eq__`: comparison on the normalized value. -/
def Word.beqW (w1 w2 : Word) : Bool := w1.normalized == w2.normalized

/-- Embeds `Word.__hash__`: `hash(self.normalized)`. -/
def Word.hashW (w : Word) : UInt64 := w.normalized.hash

/-- Embeds `Translation.__eq__`: comparison on the normalized value. -/
def Translation.beqT (t1 t2 : Translation) : Bool := t1.normalized == t2.normalized

/-- Embeds `Translation.__hash__`: `hash(self.normalized)`. -/
def Translation.hashT (t : Translation) : UInt64 := t.normalized.hash

/-- C5 helper is below; C10: `Word` and `Translation` equality/hash are
computed on the normalized (lowercase, trimmed) form, so stored values
differing only in letter case compare equal with equal hashes, and raw
inputs differing only in surrounding whitespace construct words that
compare equal with equal hashes. -/
theorem C10_case_insensitive_eq_hash :
    (∀ w1 w2 : Word, pyLower w1.value = pyLower w2.value →
      Word.beqW w1 w2 = true ∧ Word.hashW w1 = Word.hashW w2) ∧
    (∀ t1 t2 : Translation, pyLower t1.value = pyLower t2.value →
      Translation.beqT t1 t2 = true ∧ Translation.hashT t1 = Translation.hashT t2) ∧
    (∀ s1 s2 : String, pyStrip s1 = pyStrip s2 →
      ∀ w1 w2 : Word, Word.create s1 = some w1 → Word.create s2 = some w2 →
        Word.beqW w1 w2 = true ∧ Word.hashW w1 = Word.hashW w2) := by
  refine ⟨?_, ?_, ?_⟩
  · intro w1 w2 h
    have hn : w1.normalized = w2.normalized := by
      unfold Word.normalized
      rw [h]
    constructor
    · simp [Word.beqW, hn]
    · simp [Word.hashW, hn]
  · intro t1 t2 h
    have hn : t1.normalized = t2.normalized := by
      unfold Translation.normalized
      rw [h]
    constructor
    · simp [Translation.beqT, hn]
    · simp [Translation.hashT, hn]
  · intro s1 s2 hs w1 w2 h1 h2
    have h2' : Word.create s1 = some w2 := by
      unfold Word.create at h2 ⊢
      rw [hs]
      exact h2
    have hw : w1 = w2 := by
      have := h1.symm.trans h2'
      simpa using this
    subst hw
    constructor
    · simp [Word.beqW]
    · rfl

/-- Witness for C10 at concrete values: stored values in different case,
and constructions from inputs padded with whitespace. -/
theorem C10_case_insensitive_eq_hash_witness :
    (Word.beqW ⟨"CASA"⟩ ⟨"casa"⟩ = true ∧
      Word.hashW ⟨"CASA"⟩ = Word.hashW ⟨"casa"⟩) ∧
    (Translation.beqT ⟨"Gato"⟩ ⟨"gato"⟩ = true ∧
      Translation.hashT ⟨"Gato"⟩ = Translation.hashT ⟨"gato"⟩) ∧
    (Word.beqW ⟨"dog"⟩ ⟨"dog"⟩ = true ∧
      Word.hashW ⟨"dog"⟩ = Word.hashW ⟨"dog"⟩) :=
  ⟨C10_case_insensitive_eq_hash.1 ⟨"CASA"⟩ ⟨"casa"⟩ (by decide),
    C10_case_insensitive_eq_hash.2.1 ⟨"Gato"⟩ ⟨"gato"⟩ (by decide),
    C10_case_insensitive_eq_hash.2.2 " dog" "dog " (by decide) ⟨"dog"⟩ ⟨"dog"⟩
      (by decide) (by decide)⟩

/-! ## Self-similarity (claim C5)

Evaluation lemmas for the binary64 rounding model, then the claim. -/

theorem fl64_eval (x : ℚ) (n : ℤ) (E : ℕ) (hn : 52 - n = (E : ℤ))
    (h1 : (2:ℚ)^n ≤ x) (h2 : x < (2:ℚ)^(n+1)) :
    fl64 x = (rne (x * 2^E) : ℚ) / 2^E := by
  have hx : 0 < x := lt_of_lt_of_le (zpow_pos (by norm_num) n) h1
  have hlog : Int.log 2 x = n := by
    have hA : n ≤ Int.log 2 x := by
      rw [← Int.zpow_le_iff_le_log (by norm_num) hx]
      exact_mod_cast h1
    have hB : Int.log 2 x < n + 1 := by
      rw [← Int.lt_zpow_iff_log_lt (by norm_num) hx]
      exact_mod_cast h2
    omega
  unfold fl64
  rw [if_neg (not_le.mpr hx), hlog, hn, zpow_natCast]

theorem rne_intCast (m : ℤ) : rne ((m : ℤ) : ℚ) = m := by
  simp [rne, Int.floor_intCast]

/-- A value already representable in 53 bits (its scaled form is an
integer) is a fixed point of binary64 rounding. -/
theorem fl64_exact (x : ℚ) (n : ℤ) (E : ℕ) (m : ℤ) (hn : 52 - n = (E : ℤ))
    (h1 : (2:ℚ)^n ≤ x) (h2 : x < (2:ℚ)^(n+1)) (hm : x * 2^E = (m : ℚ)) :
    fl64 x = x := by
  rw [fl64_eval x n E hn h1 h2, hm, rne_intCast, ← hm]
  field_simp

theorem fl64_nine : fl64 (9 : ℚ) = 9 :=
  fl64_exact 9 3 49 (9 * 2^49) (by norm_num) (by norm_num) (by norm_num)
    (by push_cast; norm_num)

theorem fl64_eighteen : fl64 (18 : ℚ) = 18 :=
  fl64_exact 18 4 48 (18 * 2^48) (by norm_num) (by norm_num) (by norm_num)
    (by push_cast; norm_num)

theorem fl64_nineteen : fl64 (19 : ℚ) = 19 :=
  fl64_exact 19 4 48 (19 * 2^48) (by norm_num) (by norm_num) (by norm_num)
    (by push_cast; norm_num)

theorem fl64_thirtyeight : fl64 (38 : ℚ) = 38 :=
  fl64_exact 38 5 47 (38 * 2^47) (by norm_num) (by norm_num) (by norm_num)
    (by push_cast; norm_num)

theorem fl64_one : fl64 (1 : ℚ) = 1 :=
  fl64_exact 1 0 52 (2^52) (by norm_num) (by norm_num) (by norm_num)
    (by push_cast; norm_num)

/-- The double nearest `0.6` is `5404319552844595 / 2^53`. -/
theorem dbl06_eq : dbl06 = 5404319552844595 / 9007199254740992 := by
  unfold dbl06
  rw [fl64_eval (6/10) (-1) 53 (by norm_num) (by norm_num) (by norm_num)]
  have hq : (6/10 : ℚ) * 2^53 = 27021597764222976/5 := by norm_num
  have hf : ⌊(27021597764222976 : ℚ)/5⌋ = 5404319552844595 := by
    rw [Int.floor_eq_iff]
    constructor <;> norm_num
  rw [hq]
  unfold rne
  rw [hf, if_pos (by norm_num)]
  norm_num

/-- The double nearest `0.3` is `5404319552844595 / 2^54`. -/
theorem dbl03_eq : dbl03 = 5404319552844595 / 18014398509481984 := by
  unfold dbl03
  rw [fl64_eval (3/10) (-2) 54 (by norm_num) (by norm_num) (by norm_num)]
  have hq : (3/10 : ℚ) * 2^54 = 27021597764222976/5 := by norm_num
  have hf : ⌊(27021597764222976 : ℚ)/5⌋ = 5404319552844595 := by
    rw [Int.floor_eq_iff]
    constructor <;> norm_num
  rw [hq]
  unfold rne
  rw [hf, if_pos (by norm_num)]
  norm_num

/-- The double nearest `0.1` is `3602879701896397 / 2^55`. -/
theorem dbl01_eq : dbl01 = 3602879701896397 / 36028797018963968 := by
  unfold dbl01
  rw [fl64_eval (1/10) (-4) 56 (by norm_num) (by norm_num) (by norm_num)]
  have hq : (1/10 : ℚ) * 2^56 = 36028797018963968/5 := by norm_num
  have hf : ⌊(36028797018963968 : ℚ)/5⌋ = 7205759403792793 := by
    rw [Int.floor_eq_iff]
    constructor <;> norm_num
  rw [hq]
  unfold rne
  rw [hf, if_neg (by norm_num), if_pos (by norm_num)]
  norm_num

/-- The binary64 ratio of a 9-character string with itself is exactly 1
(every conversion and operation is exact here). -/
theorem ratioFPQ_self_nine (s : String) (h : s.toList.length = 9) :
    ratioFPQ s s = 1 := by
  unfold ratioFPQ ratioFPL
  rw [matchedSize_self, h]
  rw [if_neg (by norm_num)]
  push_cast
  rw [fl64_nine]
  norm_num [fl64_eighteen, fl64_one]

/-- The binary64 ratio of a 19-character string with itself is exactly 1. -/
theorem ratioFPQ_self_nineteen (s : String) (h : s.toList.length = 19) :
    ratioFPQ s s = 1 := by
  unfold ratioFPQ ratioFPL
  rw [matchedSize_self, h]
  rw [if_neg (by norm_num)]
  push_cast
  rw [fl64_nineteen]
  norm_num [fl64_thirtyeight, fl64_one]

/-- Multiplying a representable double by the exact `1.0` is exact. -/
theorem fpMul_one_dbl06 : fpMul 1 dbl06 = 5404319552844595 / 9007199254740992 := by
  unfold fpMul
  rw [dbl06_eq, one_mul]
  exact fl64_exact _ (-1) 53 5404319552844595 (by norm_num) (by norm_num)
    (by norm_num) (by push_cast; norm_num)

theorem fpMul_one_dbl03 : fpMul 1 dbl03 = 5404319552844595 / 18014398509481984 := by
  unfold fpMul
  rw [dbl03_eq, one_mul]
  exact fl64_exact _ (-2) 54 5404319552844595 (by norm_num) (by norm_num)
    (by norm_num) (by push_cast; norm_num)

theorem fpMul_one_dbl01 : fpMul 1 dbl01 = 3602879701896397 / 36028797018963968 := by
  unfold fpMul
  rw [dbl01_eq, one_mul]
  exact fl64_exact _ (-4) 56 7205759403792794 (by norm_num) (by norm_num)
    (by norm_num) (by push_cast; norm_num)

/-- The double sum `0.6 + 0.3`: the exact sum needs 54 bits, the tie
rounds to even, giving `0.8999999999999999`. -/
theorem fpAdd_dbl06_dbl03 :
    fpAdd (5404319552844595/9007199254740992) (5404319552844595/18014398509481984)
      = 8106479329266892 / 9007199254740992 := by
  unfold fpAdd
  have hs : (5404319552844595/9007199254740992 +
      5404319552844595/18014398509481984 : ℚ) = 16212958658533785/18014398509481984 := by
    norm_num
  rw [hs, fl64_eval _ (-1) 53 (by norm_num) (by norm_num) (by norm_num)]
  have hq : (16212958658533785/18014398509481984 : ℚ) * 2^53
      = 16212958658533785/2 := by norm_num
  have hf : ⌊(16212958658533785 : ℚ)/2⌋ = 8106479329266892 := by
    rw [Int.floor_eq_iff]
    constructor <;> norm_num
  rw [hq]
  unfold rne
  rw [hf, if_neg (by norm_num), if_neg (by norm_num), if_pos (by norm_num)]
  norm_num

/-- Adding the double `0.1` to the double sum of `0.6 + 0.3` rounds down
to `0.9999999999999999`, one unit in the last place below `1.0`. -/
theorem fpAdd_final :
    fpAdd (8106479329266892/9007199254740992) (3602879701896397/36028797018963968)
      = 9007199254740991 / 9007199254740992 := by
  unfold fpAdd
  have hs : (8106479329266892/9007199254740992 +
      3602879701896397/36028797018963968 : ℚ) = 36028797018963965/36028797018963968 := by
    norm_num
  rw [hs, fl64_eval _ (-1) 53 (by norm_num) (by norm_num) (by norm_num)]
  have hq : (36028797018963965/36028797018963968 : ℚ) * 2^53
      = 36028797018963965/4 := by norm_num
  have hf : ⌊(36028797018963965 : ℚ)/4⌋ = 9007199254740991 := by
    rw [Int.floor_eq_iff]
    constructor <;> norm_num
  rw [hq]
  unfold rne
  rw [hf, if_pos (by norm_num)]
  norm_num

/-- The full binary64 similarity of the sample card with itself. -/
theorem calcSimilarityFP_cardAlgo :
    calcSimilarityFP cardAlgo cardAlgo = 9007199254740991 / 9007199254740992 := by
  unfold calcSimilarityFP
  rw [show cardAlgo.word.normalized = "algorithm" from by decide]
  rw [show cardAlgo.translation.normalized = "algoritmo" from by decide]
  rw [show cardAlgo.exampl.originalNormalized = "i use an algorithm." from by decide]
  rw [ratioFPQ_self_nine "algorithm" (by decide)]
  rw [ratioFPQ_self_nine "algoritmo" (by decide)]
  rw [ratioFPQ_self_nineteen "i use an algorithm." (by decide)]
  rw [fpMul_one_dbl06, fpMul_one_dbl03, fpMul_one_dbl01]
  rw [fpAdd_dbl06_dbl03, fpAdd_final]

/-- C5 counterexample: under the IEEE-754 binary64 semantics the program
runs, `_calculate_similarity(card, card)` at the sample card returns
`9007199254740991 / 2^53` — the double printed `0.9999999999999999` —
which is NOT equal to 1.0, because the weight sum `0.6 + 0.3 + 0.1` loses
one ulp to rounding; the three weight literals are the standard binary64
values of 0.6, 0.3 and 0.1. -/
theorem C5_counterexample :
    calcSimilarityFP cardAlgo cardAlgo = 9007199254740991 / 9007199254740992 ∧
    calcSimilarityFP cardAlgo cardAlgo ≠ 1 ∧
    dbl06 = 5404319552844595 / 9007199254740992 ∧
    dbl03 = 5404319552844595 / 18014398509481984 ∧
    dbl01 = 3602879701896397 / 36028797018963968 :=
  ⟨calcSimilarityFP_cardAlgo,
    by rw [calcSimilarityFP_cardAlgo]; norm_num,
    dbl06_eq, dbl03_eq, dbl01_eq⟩

/-- C5 amended: for every valid card, the similarity of the card with an
identical copy of itself is exactly 1 in EXACT arithmetic — each of the
three `ratio`s over the normalized fields is 1 and the weights
0.6 + 0.3 + 0.1 sum to 1 — but the IEEE-754 double evaluation the
program performs returns `9007199254740991 / 2^53` = 0.9999999999999999,
one ulp below 1 and unequal to 1.0, as exhibited at the sample card. -/
theorem C5_self_similarity (c : Card) (_hwf : c.wf = true) :
    calcSimilarity c c = 1 ∧
    calcSimilarityFP cardAlgo cardAlgo = 9007199254740991 / 9007199254740992 ∧
    calcSimilarityFP cardAlgo cardAlgo ≠ 1 := by
  refine ⟨?_, calcSimilarityFP_cardAlgo, ?_⟩
  · unfold calcSimilarity
    rw [ratioQ_self, ratioQ_self, ratioQ_self]
    norm_num
  · rw [calcSimilarityFP_cardAlgo]
    norm_num

/-- Witness for C5 amended at the concrete valid sample card. -/
theorem C5_self_similarity_witness :
    calcSimilarity cardAlgo cardAlgo = 1 ∧
      calcSimilarityFP cardAlgo cardAlgo ≠ 1 :=
  ⟨(C5_self_similarity cardAlgo (by decide)).1,
    (C5_self_similarity cardAlgo (by decide)).2.2⟩

/-! ## Quality report bounds (claim C7) -/

theorem clamp01_nonneg (x : ℚ) : 0 ≤ clamp01 x := le_max_left 0 _

theorem clamp01_le_one (x : ℚ) : clamp01 x ≤ 1 :=
  max_le (by norm_num) (min_le_left 1 x)

theorem evaluateWord_fst_bounds (w : String) :
    0 ≤ (evaluateWord w).1 ∧ (evaluateWord w).1 ≤ 1 :=
  ⟨clamp01_nonneg _, clamp01_le_one _⟩

theorem evaluateTranslation_fst_bounds (t : String) :
    0 ≤ (evaluateTranslation t).1 ∧ (evaluateTranslation t).1 ≤ 1 :=
  ⟨clamp01_nonneg _, clamp01_le_one _⟩

theorem evaluateExample_fst_bounds (o t : String) :
    0 ≤ (evaluateExample o t).1 ∧ (evaluateExample o t).1 ≤ 1 :=
  ⟨clamp01_nonneg _, clamp01_le_one _⟩

theorem evaluateDiversity_bounds (c : Card) (ctx : List Card) :
    0 ≤ evaluateDiversity c ctx ∧ evaluateDiversity c ctx ≤ 1 := by
  unfold evaluateDiversity
  by_cases h : ctx.isEmpty
  · simp [h]
  · simp only [h, Bool.false_eq_true, if_false]
    exact ⟨clamp01_nonneg _, clamp01_le_one _⟩

/-- C7: the quality report of any card over any context list has its
overall score in [0, 1]; the overall score is exactly the weighted sum
0.2 · word + 0.3 · translation + 0.4 · example + 0.1 · diversity of the
recorded sub-scores; every recorded sub-score lies in [0, 1]; and the
diversity sub-score defaults to 1 for an empty context list. -/
theorem C7_quality_report (card : Card) (ctx : List Card) :
    (0 ≤ (evaluateCard card ctx).overallScore ∧
      (evaluateCard card ctx).overallScore ≤ 1) ∧
    (evaluateCard card ctx).overallScore =
      (evaluateCard card ctx).metrics.wordScore * 0.2 +
        (evaluateCard card ctx).metrics.translationScore * 0.3 +
        (evaluateCard card ctx).metrics.exampleScore * 0.4 +
        (evaluateCard card ctx).metrics.diversityScore * 0.1 ∧
    (0 ≤ (evaluateCard card ctx).metrics.wordScore ∧
      (evaluateCard card ctx).metrics.wordScore ≤ 1) ∧
    (0 ≤ (evaluateCard card ctx).metrics.translationScore ∧
      (evaluateCard card ctx).metrics.translationScore ≤ 1) ∧
    (0 ≤ (evaluateCard card ctx).metrics.exampleScore ∧
      (evaluateCard card ctx).metrics.exampleScore ≤ 1) ∧
    (0 ≤ (evaluateCard card ctx).metrics.diversityScore ∧
      (evaluateCard card ctx).metrics.diversityScore ≤ 1) ∧
    (ctx = [] → (evaluateCard card ctx).metrics.diversityScore = 1) := by
  obtain ⟨hw0, hw1⟩ := evaluateWord_fst_bounds card.word.value
  obtain ⟨ht0, ht1⟩ := evaluateTranslation_fst_bounds card.translation.value
  obtain ⟨he0, he1⟩ :=
    evaluateExample_fst_bounds card.exampl.original card.exampl.translated
  obtain ⟨hd0, hd1⟩ := evaluateDiversity_bounds card ctx
  have hdm : 0 ≤ (if ctx.isEmpty then (1 : ℚ) else evaluateDiversity card ctx) ∧
      (if ctx.isEmpty then (1 : ℚ) else evaluateDiversity card ctx) ≤ 1 := by
    by_cases h : ctx.isEmpty
    · simp [h]
    · simp only [h, Bool.false_eq_true, if_false]
      exact ⟨hd0, hd1⟩
  refine ⟨?_, ?_, ?_, ?_, ?_, ?_, ?_⟩
  · constructor
    · simp only [evaluateCard]
      nlinarith [hdm.1, hdm.2]
    · simp only [evaluateCard]
      nlinarith [hdm.1, hdm.2]
  · simp only [evaluateCard]
  · exact ⟨hw0, hw1⟩
  · exact ⟨ht0, ht1⟩
  · exact ⟨he0, he1⟩
  · simp only [evaluateCard]
    exact hdm
  · intro h
    subst h
    simp [evaluateCard]

/-- Witness for C7 at the sample card with an empty context list. -/
theorem C7_quality_report_witness :
    (evaluateCard cardAlgo []).metrics.diversityScore = 1 ∧
      0 ≤ (evaluateCard cardAlgo []).overallScore :=
  ⟨(C7_quality_report cardAlgo []).2.2.2.2.2.2 rfl,
    (C7_quality_report cardAlgo []).1.1⟩

/-! ## Duplicate search ordering (claim C6) -/

theorem orderedInsert_filter_ne (a : Card × ℚ) (s : ℚ) (h : a.2 ≠ s) :
    ∀ l : List (Card × ℚ),
      (List.orderedInsert simGE a l).filter (fun x => decide (x.2 = s)) =
        l.filter (fun x => decide (x.2 = s)) := by
  intro l
  induction l with
  | nil => simp [List.orderedInsert, List.filter, h]
  | cons b t ih =>
    by_cases hr : simGE a b
    · rw [List.orderedInsert, if_pos hr]
      simp [List.filter_cons, h]
    · rw [List.orderedInsert, if_neg hr]
      simp [List.filter_cons, ih]

theorem orderedInsert_filter_eq (a : Card × ℚ) :
    ∀ l : List (Card × ℚ),
      (List.orderedInsert simGE a l).filter (fun x => decide (x.2 = a.2)) =
        a :: l.filter (fun x => decide (x.2 = a.2)) := by
  intro l
  induction l with
  | nil => simp [List.orderedInsert, List.filter]
  | cons b t ih =>
    by_cases hr : simGE a b
    · rw [List.orderedInsert, if_pos hr]
      simp [List.filter_cons]
    · rw [List.orderedInsert, if_neg hr]
      have hb : ¬b.2 = a.2 := by
        unfold simGE at hr
        intro heq
        exact hr (le_of_eq heq)
      simp [List.filter_cons, hb, ih]

/-- The stable insertion sort preserves, score by score, the exact
subsequence of equal-score entries: ties keep their original order. -/
theorem insertionSort_filter_score (s : ℚ) :
    ∀ l : List (Card × ℚ),
      (List.insertionSort simGE l).filter (fun x => decide (x.2 = s)) =
        l.filter (fun x => decide (x.2 = s)) := by
  intro l
  induction l with
  | nil => rfl
  | cons a t ih =>
    by_cases ha : a.2 = s
    · subst ha
      rw [List.insertionSort, orderedInsert_filter_eq a _, ih]
      simp [List.filter_cons]
    · rw [List.insertionSort, orderedInsert_filter_ne a s ha, ih]
      simp [List.filter_cons, ha]

/-- C6: `find_duplicates_for_card` returns exactly the fetched candidates
with a different id and a similarity at least the threshold, paired with
their scores; the result is sorted by score descending; and for every
score value the equal-score entries appear in their original fetch order
(the characterisation of the stable descending sort). -/
theorem C6_find_duplicates (card : Card) (fetched : List Card) (threshold : ℚ) :
    List.Pairwise (fun x y : Card × ℚ => y.2 ≤ x.2)
      (findDuplicatesForCard card fetched threshold) ∧
    (∀ e s, (e, s) ∈ findDuplicatesForCard card fetched threshold ↔
      (e ∈ fetched ∧ e.id ≠ card.id ∧ s = calcSimilarity card e ∧ threshold ≤ s)) ∧
    (∀ s, (findDuplicatesForCard card fetched threshold).filter
        (fun x => decide (x.2 = s)) =
      (dupCandidates card fetched threshold).filter (fun x => decide (x.2 = s))) := by
  refine ⟨?_, ?_, ?_⟩
  · exact List.sorted_insertionSort simGE (dupCandidates card fetched threshold)
  · intro e s
    have hperm := List.perm_insertionSort simGE (dupCandidates card fetched threshold)
    rw [findDuplicatesForCard, hperm.mem_iff, dupCandidates, List.mem_filterMap]
    constructor
    · rintro ⟨e', he', hf⟩
      by_cases h1 : e'.id = card.id
      · rw [if_pos h1] at hf
        exact Option.noConfusion hf
      · rw [if_neg h1] at hf
        by_cases h2 : threshold ≤ calcSimilarity card e'
        · rw [if_pos h2] at hf
          have h' : (e', calcSimilarity card e') = (e, s) := Option.some.inj hf
          have he1 : e' = e := congrArg Prod.fst h'
          have hs1 : calcSimilarity card e' = s := congrArg Prod.snd h'
          subst he1
          exact ⟨he', h1, hs1.symm, hs1 ▸ h2⟩
        · rw [if_neg h2] at hf
          exact Option.noConfusion hf
    · rintro ⟨he, hid, hs, hth⟩
      refine ⟨e, he, ?_⟩
      rw [if_neg hid, if_pos (hs ▸ hth), hs]
  · intro s
    exact insertionSort_filter_score s (dupCandidates card fetched threshold)

/-- Witness for C6: a twin card (same content, different id) is reported
as a duplicate of the sample card at the default 0.8 threshold, with
score 1. -/
theorem C6_find_duplicates_witness :
    (cardAlgoTwin, 1) ∈ findDuplicatesForCard cardAlgo [cardAlgoTwin] (8/10) := by
  have hsim : calcSimilarity cardAlgo cardAlgo = 1 := by
    unfold calcSimilarity
    rw [ratioQ_self, ratioQ_self, ratioQ_self]
    norm_num
  refine ((C6_find_duplicates cardAlgo [cardAlgoTwin] (8/10)).2.1
    cardAlgoTwin 1).mpr ⟨by decide, by decide, ?_, by norm_num⟩
  exact hsim.symm

/-! ## Uniqueness validation (claim C3) -/

/-- C3 counterexample: with an existing card of identical content, all
three violations hold at once (exact normalized-word match, similarity
1 > 0.9, similar translation), yet the `continue` after the exact-match
problem leaves exactly ONE problem string, not one per violation. -/
theorem C3_counterexample :
    (validateCardUniqueness cardAlgo [cardAlgoTwin]).2.length = 1 ∧
    cardAlgo.word.normalized = cardAlgoTwin.word.normalized ∧
    (0.9 : ℚ) < calcSimilarity cardAlgo cardAlgoTwin ∧
    areTranslationsSimilar cardAlgo.translation.value
      cardAlgoTwin.translation.value 0.8 = true := by
  refine ⟨by decide, by decide, ?_, ?_⟩
  · have hsim : calcSimilarity cardAlgo cardAlgo = 1 := by
      unfold calcSimilarity
      rw [ratioQ_self, ratioQ_self, ratioQ_self]
      norm_num
    have : calcSimilarity cardAlgo cardAlgoTwin = 1 := hsim
    rw [this]
    norm_num
  · show areTranslationsSimilar cardAlgo.translation.value
      cardAlgo.translation.value 0.8 = true
    unfold areTranslationsSimilar
    rw [ratioQ_self]
    simp only [decide_eq_true_eq]
    norm_num

theorem perCardProblems_eq_nil_iff (card e : Card) :
    perCardProblems card e = [] ↔
      (card.word.normalized ≠ e.word.normalized ∧
        calcSimilarity card e ≤ 0.9 ∧
        areTranslationsSimilar card.translation.value e.translation.value 0.8
          = false) := by
  unfold perCardProblems
  by_cases h1 : card.word.normalized = e.word.normalized
  · simp [h1]
  · rw [if_neg h1]
    constructor
    · intro h
      rw [List.append_eq_nil] at h
      obtain ⟨ha, hb⟩ := h
      refine ⟨h1, ?_, ?_⟩
      · by_contra hlt
        rw [if_pos (not_le.mp hlt)] at ha
        exact List.cons_ne_nil _ _ ha
      · by_contra hne
        have ht : areTranslationsSimilar card.translation.value
            e.translation.value 0.8 = true := by
          cases hx : areTranslationsSimilar card.translation.value
              e.translation.value 0.8 with
          | false => exact absurd hx hne
          | true => rfl
        rw [if_pos ht] at hb
        exact List.cons_ne_nil _ _ hb
    · rintro ⟨-, h2, h3⟩
      rw [if_neg (not_lt.mpr h2), if_neg (by simp [h3])]
      rfl

/-- C3 amended: `validate_card_uniqueness` returns `(isUnique, problems)`
where `isUnique` holds iff `problems` is empty, which in turn holds iff no
existing card triggers any of the three violations; each existing card
with an exact normalized-word match contributes a problem naming the
duplicate — and is then skipped, so the similarity and translation checks
fire (one problem each) only for cards without an exact word match.  The
spec example holds: against an existing card with word `"algorithm"`, a
card built from the `"Algorithm "` variant yields `(false, …)` with one
problem naming the duplicate. -/
theorem C3_validate_uniqueness :
    (∀ (card : Card) (existing : List Card),
      ((validateCardUniqueness card existing).1 = true ↔
        (validateCardUniqueness card existing).2 = []) ∧
      ((validateCardUniqueness card existing).2 = [] ↔
        ∀ e ∈ existing, card.word.normalized ≠ e.word.normalized ∧
          calcSimilarity card e ≤ 0.9 ∧
          areTranslationsSimilar card.translation.value e.translation.value 0.8
            = false) ∧
      (∀ e ∈ existing, card.word.normalized = e.word.normalized →
        dupWordProblem card e ∈ (validateCardUniqueness card existing).2) ∧
      (∀ e ∈ existing, card.word.normalized ≠ e.word.normalized →
        (0.9 : ℚ) < calcSimilarity card e →
        similarCardProblem e ∈ (validateCardUniqueness card existing).2) ∧
      (∀ e ∈ existing, card.word.normalized ≠ e.word.normalized →
        areTranslationsSimilar card.translation.value e.translation.value 0.8
          = true →
        similarTranslationProblem e ∈ (validateCardUniqueness card existing).2)) ∧
    (Word.create "Algorithm " = some ⟨"Algorithm"⟩ ∧
      validateCardUniqueness cardAlgoVariant [cardAlgo] =
        (false, [dupWordProblem cardAlgoVariant cardAlgo])) := by
  constructor
  · intro card existing
    refine ⟨?_, ?_, ?_, ?_, ?_⟩
    · simp [validateCardUniqueness, List.length_eq_zero]
    · show uniquenessProblems card existing = [] ↔ _
      unfold uniquenessProblems
      rw [List.flatMap_eq_nil_iff]
      constructor
      · intro h e he
        exact (perCardProblems_eq_nil_iff card e).mp (h e he)
      · intro h e he
        exact (perCardProblems_eq_nil_iff card e).mpr (h e he)
    · intro e he hm
      show _ ∈ uniquenessProblems card existing
      rw [uniquenessProblems, List.mem_flatMap]
      refine ⟨e, he, ?_⟩
      rw [perCardProblems, if_pos hm]
      exact List.mem_singleton_self _
    · intro e he hm hs
      show _ ∈ uniquenessProblems card existing
      rw [uniquenessProblems, List.mem_flatMap]
      refine ⟨e, he, ?_⟩
      rw [perCardProblems, if_neg hm]
      refine List.mem_append_left _ ?_
      rw [if_pos hs]
      exact List.mem_singleton_self _
    · intro e he hm ht
      show _ ∈ uniquenessProblems card existing
      rw [uniquenessProblems, List.mem_flatMap]
      refine ⟨e, he, ?_⟩
      rw [perCardProblems, if_neg hm]
      refine List.mem_append_right _ ?_
      rw [if_pos ht]
      exact List.mem_singleton_self _
  · exact ⟨by decide, by decide⟩

/-- Witness for C3 amended, at the spec example: the variant card is
reported non-unique with the duplicate-naming problem present. -/
theorem C3_validate_uniqueness_witness :
    dupWordProblem cardAlgoVariant cardAlgo ∈
      (validateCardUniqueness cardAlgoVariant [cardAlgo]).2 ∧
      (validateCardUniqueness cardAlgoVariant [cardAlgo]).1 = false :=
  ⟨(C3_validate_uniqueness.1 cardAlgoVariant [cardAlgo]).2.2.1 cardAlgo
      (List.mem_singleton_self _) (by decide),
    by
      rw [(C3_validate_uniqueness).2.2]⟩

/-! ## Serialization round trip (claim C9) -/

theorem string_mk_toList (s : String) : String.mk s.toList = s := rfl

theorem word_wf_spec (w : Word) (h : w.wf = true) :
    pyStrip w.value = w.value ∧ w.value ≠ "" ∧
      w.value.toList.all wordCharOk = true ∧
      squashWs w.value.toList = w.value.toList := by
  unfold Word.wf at h
  simp only [Bool.and_eq_true, beq_iff_eq, Bool.not_eq_true',
    beq_eq_false_iff_ne] at h
  exact ⟨h.1.1.1, h.1.1.2, h.1.2, h.2⟩

theorem translation_wf_spec (t : Translation) (h : t.wf = true) :
    pyStrip t.value = t.value ∧ t.value ≠ "" ∧
      squashWs t.value.toList = t.value.toList := by
  unfold Translation.wf at h
  simp only [Bool.and_eq_true, beq_iff_eq, Bool.not_eq_true',
    beq_eq_false_iff_ne] at h
  exact ⟨h.1.1, h.1.2, h.2⟩

theorem exmpl_wf_spec (e : Exmpl) (h : e.wf = true) :
    pyStrip e.original = e.original ∧ e.original ≠ "" ∧
      squashWs e.original.toList = e.original.toList ∧
      pyStrip e.translated = e.translated ∧ e.translated ≠ "" ∧
      squashWs e.translated.toList = e.translated.toList ∧
      10 ≤ e.original.length ∧ 10 ≤ e.translated.length := by
  unfold Exmpl.wf at h
  simp only [Bool.and_eq_true, beq_iff_eq, Bool.not_eq_true',
    beq_eq_false_iff_ne, decide_eq_true_eq] at h
  exact ⟨h.1.1.1.1.1.1.1, h.1.1.1.1.1.1.2, h.1.1.1.1.1.2, h.1.1.1.1.2,
    h.1.1.1.2, h.1.1.2, h.1.2, h.2⟩

theorem audioPath_wf_spec (a : AudioPath) (h : a.wf = true) :
    pyStrip a.path = a.path ∧ a.path ≠ "" ∧ pathSuffix a.path ≠ "" ∧
      supportedFormats.contains (pyLower (pathSuffix a.path)) = true := by
  unfold AudioPath.wf at h
  simp only [Bool.and_eq_true, beq_iff_eq, Bool.not_eq_true',
    beq_eq_false_iff_ne] at h
  exact ⟨h.1.1.1, h.1.1.2, h.1.2, h.2⟩

/-- Re-running the `Word` constructor on a constructor-shaped value is the
identity (normalisation is idempotent). -/
theorem word_create_of_wf (w : Word) (h : w.wf = true) :
    Word.create w.value = some w := by
  obtain ⟨h1, h2, h3, h4⟩ := word_wf_spec w h
  unfold Word.create
  rw [h1, if_neg h2, if_neg (by rw [h3]; simp), h4, string_mk_toList]

theorem translation_create_of_wf (t : Translation) (h : t.wf = true) :
    Translation.create t.value = some t := by
  obtain ⟨h1, h2, h3⟩ := translation_wf_spec t h
  unfold Translation.create
  rw [h1, if_neg h2, h3, string_mk_toList]

theorem exmpl_create_of_wf (e : Exmpl) (h : e.wf = true) :
    Exmpl.create e.original e.translated = some e := by
  obtain ⟨h1, h2, h3, h4, h5, h6, h7, h8⟩ := exmpl_wf_spec e h
  unfold Exmpl.create
  rw [h1, h4, if_neg h2, if_neg h5]
  simp only [h3, h6, string_mk_toList]
  rw [if_neg (not_lt.mpr h7), if_neg (not_lt.mpr h8)]

theorem audioPath_create_of_wf (a : AudioPath) (h : a.wf = true) :
    AudioPath.create a.path = some a := by
  obtain ⟨h1, h2, h3, h4⟩ := audioPath_wf_spec a h
  unfold AudioPath.create
  rw [h1, if_neg h2]
  simp only [h1]
  rw [if_neg h3, if_neg (by rw [h4]; simp)]

/-- C9: serializing a valid card to its record shape and reconstructing
through the validating constructors returns the identical card — every
field, and hence every derived normalized form, matches the original. -/
theorem C9_card_round_trip (c : Card) (h : c.wf = true) :
    Card.fromDict (Card.toDict c) = some c := by
  unfold Card.wf at h
  simp only [Bool.and_eq_true] at h
  obtain ⟨⟨⟨hw, ht⟩, he⟩, ha⟩ := h
  have hW := word_create_of_wf c.word hw
  have hT := translation_create_of_wf c.translation ht
  have hE := exmpl_create_of_wf c.exampl he
  have hwS := word_wf_spec c.word hw
  have htS := translation_wf_spec c.translation ht
  have heS := exmpl_wf_spec c.exampl he
  unfold Card.fromDict Card.toDict Word.toDict Translation.toDict Exmpl.toDict
  cases hA : c.audioPath with
  | none =>
    simp only [hA, Option.map_none', hW, hT, hE, Option.bind_eq_bind,
      Option.some_bind]
    rw [hwS.1, if_neg hwS.2.1, htS.1, if_neg htS.2.1, heS.1,
      if_neg (not_lt.mpr heS.2.2.2.2.2.2.1)]
    rw [← hA]
  | some a =>
    have haW : a.wf = true := by
      rw [hA] at ha
      exact ha
    have hAP := audioPath_create_of_wf a haW
    simp only [hA, Option.map_some', hAP, Option.bind_eq_bind,
      Option.some_bind, hW, hT, hE, AudioPath.toDict]
    rw [hwS.1, if_neg hwS.2.1, htS.1, if_neg htS.2.1, heS.1,
      if_neg (not_lt.mpr heS.2.2.2.2.2.2.1)]
    rw [← hA]

/-- Sample card carrying an audio reference. -/
def cardWithAudio : Card :=
  { cardAlgo with id := 4, audioPath := some ⟨"audio/algo.mp3"⟩ }

/-- Witness for C9 at two concrete valid cards, one with an audio
reference and one without. -/
theorem C9_card_round_trip_witness :
    Card.fromDict (Card.toDict cardAlgo) = some cardAlgo ∧
      Card.fromDict (Card.toDict cardWithAudio) = some cardWithAudio :=
  ⟨C9_card_round_trip cardAlgo (by decide),
    C9_card_round_trip cardWithAudio (by decide)⟩

end AnkiGen
